import Mathlib

/-!
Verification of the commute-optimizer analysis engine and request governor.

The definitions below are a shallow embedding of:
- `src/public/index.js` (primary copy of the analysis engine; `src/unnamed/part_000`
  is a near-duplicate of the same functions and agrees on everything modelled here), and
- `src/api/directions.js` (the in-memory rate limiter `checkRateLimit`).

JavaScript numbers are modelled as `Nat` (all quantities involved are non-negative
integers: durations in seconds, epoch milliseconds, counters).  JavaScript truthiness
on numbers (`0`, `undefined`, `null` are falsy) and the `x || d` coalescing idiom are
modelled explicitly where the source relies on them.  `Math.min` results that can be
`Infinity` are modelled as `Option Nat` with `none` standing for `Infinity`.
-/

namespace Commute

/-- Time of day as hours and minutes, the result of parsing an `"HH:MM"` string with
`split(':').map(Number)` in the source. -/
structure TimeHM where
  hours : Nat
  minutes : Nat
deriving DecidableEq

/-- Total minutes past midnight (`hours * 60 + minutes` in the source). -/
def TimeHM.toMinutes (t : TimeHM) : Nat :=
  t.hours * 60 + t.minutes

/-- JavaScript `n.toString().padStart(2, '0')` for a natural number. -/
def padTwo (n : Nat) : String :=
  let s := toString n
  if s.length < 2 then "0" ++ s else s

/-- Slot built from a running minute total: `hours = floor(cur / 60)`, `mins = cur % 60`
(src/public/index.js lines 448-449). -/
def slotOfMinutes (cur : Nat) : TimeHM :=
  ⟨cur / 60, cur % 60⟩

/-- The `"HH:MM"` string pushed for a slot (src/public/index.js line 450). -/
def slotString (t : TimeHM) : String :=
  padTwo t.hours ++ ":" ++ padTwo t.minutes

/-- Loop body of `generateTimeSlots` (src/public/index.js lines 447-452): starting at
`current`, emit a slot and advance by `interval` while `current <= endTotal`.
The source loop does not terminate for `interval = 0`; the guard `0 < interval`
restricts the embedding to the positive intervals of the generator's contract
(the program only ever calls it with `CONFIG.DEFAULTS.INTERVAL_MINUTES = 15`). -/
def generateTimeSlotsAux (current endTotal interval : Nat) : List TimeHM :=
  if h : 0 < interval ∧ current ≤ endTotal then
    slotOfMinutes current :: generateTimeSlotsAux (current + interval) endTotal interval
  else
    []
termination_by endTotal + 1 - current
decreasing_by omega

/-- `generateTimeSlots(start, end, intervalMinutes)` (src/public/index.js lines 439-455).
The source operates on `"HH:MM"` strings and re-formats each emitted slot; the embedding
carries the parsed hour/minute pair (`slotString` recovers the emitted string). -/
def generateTimeSlots (startT endT : TimeHM) (intervalMinutes : Nat) : List TimeHM :=
  generateTimeSlotsAux startT.toMinutes endT.toMinutes intervalMinutes

/-- `CONFIG.DEFAULTS.INTERVAL_MINUTES` (src/public/index.js line 24). -/
def CONFIG_INTERVAL_MINUTES : Nat := 15

/-- `formatTime(timeString)` (src/public/index.js lines 733-738):
12-hour clock rendering with an AM/PM suffix; `hours % 12 || 12` maps 0 to 12. -/
def formatTime (t : TimeHM) : String :=
  let period := if 12 ≤ t.hours then "PM" else "AM"
  let displayHours := if t.hours % 12 = 0 then 12 else t.hours % 12
  toString displayHours ++ ":" ++ padTwo t.minutes ++ " " ++ period

/-- `combineDateAndTime(date, timeString)` (src/public/index.js lines 457-462):
binds the slot's hour/minute onto the date with seconds and milliseconds zeroed.
`dateMs` is the date's local midnight in epoch milliseconds, so the bound instant is
`dateMs + (hours * 60 + minutes) * 60000`. -/
def combineDateAndTime (dateMs : Nat) (t : TimeHM) : Nat :=
  dateMs + t.toMinutes * 60000

/-! ## Request governor (src/api/directions.js) -/

/-- `RATE_LIMIT.windowMs` (src/api/directions.js line 12). -/
def RATE_LIMIT_windowMs : Nat := 60 * 1000

/-- `RATE_LIMIT.maxRequests` (src/api/directions.js line 13). -/
def RATE_LIMIT_maxRequests : Nat := 60

/-- `RATE_LIMIT.dailyLimit` (src/api/directions.js line 14). -/
def RATE_LIMIT_dailyLimit : Nat := 1000

/-- Per-client rate limit record (src/api/directions.js line 27).  The source's
`dailyKey` is the string `ip + "_" + date`; for a fixed client it varies only with the
calendar date, modelled here as a day index. -/
structure RateLimitEntry where
  count : Nat
  windowStart : Nat
  dailyKey : Nat
  dailyCount : Nat
deriving DecidableEq

/-- Outcome of `checkRateLimit` (src/api/directions.js lines 45-58): the two denial
sites are distinguished, the short-window denial carrying the computed `retryAfter`
seconds embedded in its message. -/
inductive RateCheckResult where
  | allowed
  | deniedDaily
  | deniedWindow (retryAfter : Nat)
deriving DecidableEq

/-- `Math.ceil(x / 1000)` for a non-negative integer `x`
(src/api/directions.js line 50). -/
def ceilDiv1000 (x : Nat) : Nat :=
  (x + 999) / 1000

/-- Entry-normalization steps of `checkRateLimit` (src/api/directions.js lines 26-42):
create a fresh entry on first sight of the client, reset the daily counter when the
calendar day changed, and reset the short window when it has expired.  The JS
comparison `now - entry.windowStart > windowMs` is false whenever `now` is not past
`windowStart + windowMs`, which truncated `Nat` subtraction reproduces. -/
def normalizeEntry (entry? : Option RateLimitEntry) (now today : Nat) : RateLimitEntry :=
  let entry :=
    match entry? with
    | none => { count := 0, windowStart := now, dailyKey := today, dailyCount := 0 }
    | some e => e
  let entry :=
    if entry.dailyKey ≠ today then { entry with dailyKey := today, dailyCount := 0 } else entry
  if RATE_LIMIT_windowMs < now - entry.windowStart then
    { entry with count := 0, windowStart := now }
  else entry

/-- Cap checks and increment of `checkRateLimit` (src/api/directions.js lines 44-58):
the daily cap is tested first, then the short-window cap with its `retryAfter`, and
only the allowed path increments the two counters. -/
def checkLimits (entry : RateLimitEntry) (now : Nat) : RateLimitEntry × RateCheckResult :=
  if RATE_LIMIT_dailyLimit ≤ entry.dailyCount then
    (entry, .deniedDaily)
  else if RATE_LIMIT_maxRequests ≤ entry.count then
    (entry, .deniedWindow (ceilDiv1000 (entry.windowStart + RATE_LIMIT_windowMs - now)))
  else
    ({ entry with count := entry.count + 1, dailyCount := entry.dailyCount + 1 }, .allowed)

/-- `checkRateLimit(ip)` (src/api/directions.js lines 21-59) for one client identity:
the map lookup/creation and resets followed by the cap checks.  `now` is `Date.now()`
in milliseconds and `today` the calendar-day component of the daily key. -/
def checkRateLimit (entry? : Option RateLimitEntry) (now today : Nat) :
    RateLimitEntry × RateCheckResult :=
  checkLimits (normalizeEntry entry? now today) now

/-- A sequence of governor checks for one client identity, each given as a pair
`(now, today)`, threading the stored entry exactly as the source's `rateLimitMap`
does between calls of `checkRateLimit`. -/
def runRateChecks (entry? : Option RateLimitEntry) :
    List (Nat × Nat) → Option RateLimitEntry × List RateCheckResult
  | [] => (entry?, [])
  | (now, today) :: rest =>
    let step := checkRateLimit entry? now today
    let next := runRateChecks (some step.1) rest
    (next.1, step.2 :: next.2)

theorem runRateChecks_append (entry? : Option RateLimitEntry) (xs ys : List (Nat × Nat)) :
    runRateChecks entry? (xs ++ ys) =
      ((runRateChecks (runRateChecks entry? xs).1 ys).1,
        (runRateChecks entry? xs).2 ++ (runRateChecks (runRateChecks entry? xs).1 ys).2) := by
  induction xs generalizing entry? with
  | nil => simp [runRateChecks]
  | cons x xs ih =>
    obtain ⟨now, today⟩ := x
    simp [runRateChecks, ih]

theorem runRateChecks_fresh_window (ts : List Nat) :
    ∀ c t0 day : Nat, (∀ t ∈ ts, t ≤ t0 + RATE_LIMIT_windowMs) →
      c + ts.length ≤ RATE_LIMIT_maxRequests →
      runRateChecks (some ⟨c, t0, day, c⟩) (ts.map (fun t => (t, day))) =
        (some ⟨c + ts.length, t0, day, c + ts.length⟩,
          List.replicate ts.length RateCheckResult.allowed) := by
  induction ts with
  | nil => intro c t0 day _ _; simp [runRateChecks]
  | cons t ts ih =>
    intro c t0 day hwin hcap
    have h1 : t ≤ t0 + RATE_LIMIT_windowMs := hwin t (List.mem_cons_self t ts)
    have hstep : checkRateLimit (some ⟨c, t0, day, c⟩) t day =
        (⟨c + 1, t0, day, c + 1⟩, .allowed) := by
      have hwt : ¬ (RATE_LIMIT_windowMs < t - t0) := by
        simp only [RATE_LIMIT_windowMs] at h1 ⊢; omega
      have hdc : ¬ (RATE_LIMIT_dailyLimit ≤ c) := by
        simp only [RATE_LIMIT_dailyLimit, RATE_LIMIT_maxRequests] at hcap ⊢
        simp only [List.length_cons] at hcap; omega
      have hcc : ¬ (RATE_LIMIT_maxRequests ≤ c) := by
        simp only [RATE_LIMIT_maxRequests] at hcap ⊢
        simp only [List.length_cons] at hcap; omega
      simp [checkRateLimit, normalizeEntry, checkLimits, hwt, hdc, hcc]
    have hrest := ih (c + 1) t0 day (fun x hx => hwin x (List.mem_cons_of_mem _ hx))
      (by simp only [List.length_cons] at hcap; omega)
    simp only [List.map_cons, runRateChecks, hstep, hrest, List.length_cons,
      List.replicate_succ]
    have hc : c + 1 + ts.length = c + (ts.length + 1) := by omega
    rw [hc]

/-- Claim C4 (amended): in `checkRateLimit` the daily cap is evaluated before the
short-window cap (when the normalized daily count is at the daily limit the result is
the daily denial, regardless of the short-window counter), both counters are
incremented exactly once per check and only when the result is `allowed`, and a
denied check performs no increment (the entry stays exactly the normalized entry,
though the normalization itself may have reset a counter on a day or window
rollover) — so denied calls never consume quota. -/
theorem governor_check_discipline :
    ∀ (entry? : Option RateLimitEntry) (now today : Nat),
      (RATE_LIMIT_dailyLimit ≤ (normalizeEntry entry? now today).dailyCount →
        (checkRateLimit entry? now today).2 = RateCheckResult.deniedDaily)
      ∧ ((checkRateLimit entry? now today).2 = RateCheckResult.allowed →
          (checkRateLimit entry? now today).1.count
              = (normalizeEntry entry? now today).count + 1
            ∧ (checkRateLimit entry? now today).1.dailyCount
              = (normalizeEntry entry? now today).dailyCount + 1)
      ∧ ((checkRateLimit entry? now today).2 ≠ RateCheckResult.allowed →
          (checkRateLimit entry? now today).1 = normalizeEntry entry? now today) := by
  intro entry? now today
  refine ⟨?_, ?_, ?_⟩ <;> simp only [checkRateLimit, checkLimits] <;>
    split_ifs with h1 h2 <;> simp_all

theorem governor_check_discipline_witness :
    ((checkRateLimit (some ⟨60, 0, 0, 1000⟩) 0 0).2 = RateCheckResult.deniedDaily)
    ∧ ((checkRateLimit none 0 0).1.count = (normalizeEntry none 0 0).count + 1
        ∧ (checkRateLimit none 0 0).1.dailyCount = (normalizeEntry none 0 0).dailyCount + 1) :=
  ⟨(governor_check_discipline (some ⟨60, 0, 0, 1000⟩) 0 0).1 (by decide),
    (governor_check_discipline none 0 0).2.1 (by decide)⟩

/-- Claim C4 counterexample: a check that is denied can still change the daily
counter.  Entry `{count := 60, windowStart := 0, dailyKey := 1, dailyCount := 5}`
checked at `now = 30000` on day `2`: the day rollover resets `dailyCount` from 5 to 0,
then the short-window cap denies the request — so this denied check did not leave
both counters unchanged. -/
theorem governor_denied_check_resets_daily_counter :
    ((checkRateLimit (some ⟨60, 0, 1, 5⟩) 30000 2).2 ≠ RateCheckResult.allowed)
    ∧ (checkRateLimit (some ⟨60, 0, 1, 5⟩) 30000 2).1.dailyCount ≠ 5 := by
  decide

/-- Claim C5 (amended): from a fresh entry, 60 consecutive checks inside one short
window (same calendar day) are all allowed and a 61st check within the same window is
denied with `retryAfter = ceil((windowStart + windowMs - now) / 1000)`; that value is
strictly positive whenever the 61st check happens strictly before the window's end
instant (at the exact end instant it is 0); and a check on a new calendar day resets
the daily counter to zero during normalization, regardless of the short-window
state. -/
theorem governor_sequence_behavior :
    ∀ (t0 day : Nat) (ts : List Nat) (t61 : Nat),
      ts.length = 59 → (∀ t ∈ ts, t ≤ t0 + RATE_LIMIT_windowMs) →
      t61 ≤ t0 + RATE_LIMIT_windowMs →
      (runRateChecks none (((t0 :: ts) ++ [t61]).map (fun t => (t, day)))).2 =
        List.replicate 60 RateCheckResult.allowed ++
          [RateCheckResult.deniedWindow (ceilDiv1000 (t0 + RATE_LIMIT_windowMs - t61))]
      ∧ (t61 < t0 + RATE_LIMIT_windowMs → 0 < ceilDiv1000 (t0 + RATE_LIMIT_windowMs - t61))
      ∧ (∀ (e : RateLimitEntry) (now day2 : Nat), e.dailyKey ≠ day2 →
          (normalizeEntry (some e) now day2).dailyCount = 0) := by
  intro t0 day ts t61 hlen hwin h61
  refine ⟨?_, ?_, ?_⟩
  · have hfirst : checkRateLimit none t0 day = (⟨1, t0, day, 1⟩, .allowed) := by
      simp [checkRateLimit, normalizeEntry, checkLimits, RATE_LIMIT_windowMs,
        RATE_LIMIT_dailyLimit, RATE_LIMIT_maxRequests]
    have hbulk := runRateChecks_fresh_window ts 1 t0 day hwin
      (by simp only [RATE_LIMIT_maxRequests]; omega)
    have hlast : checkRateLimit (some ⟨60, t0, day, 60⟩) t61 day =
        (⟨60, t0, day, 60⟩, .deniedWindow (ceilDiv1000 (t0 + RATE_LIMIT_windowMs - t61))) := by
      have hwt : ¬ (RATE_LIMIT_windowMs < t61 - t0) := by
        simp only [RATE_LIMIT_windowMs] at h61 ⊢; omega
      simp [checkRateLimit, normalizeEntry, checkLimits, hwt,
        RATE_LIMIT_dailyLimit, RATE_LIMIT_maxRequests]
    have hsplit : ((t0 :: ts) ++ [t61]).map (fun t => (t, day)) =
        ((t0, day) :: ts.map (fun t => (t, day))) ++ [(t61, day)] := by
      simp
    have hfirstRun : runRateChecks none ((t0, day) :: ts.map (fun t => (t, day))) =
        (some ⟨60, t0, day, 60⟩,
          RateCheckResult.allowed :: List.replicate 59 RateCheckResult.allowed) := by
      simp only [runRateChecks, hfirst]
      rw [hbulk]
      simp [hlen]
    rw [hsplit, runRateChecks_append, hfirstRun]
    simp [runRateChecks, hlast, List.replicate_succ]
  · intro hlt
    have : 1 ≤ t0 + RATE_LIMIT_windowMs - t61 := by omega
    exact Nat.div_pos (by omega) (by norm_num)
  · intro e now day2 hne
    simp only [normalizeEntry, hne, ne_eq, not_false_eq_true, if_true]
    split <;> rfl

theorem governor_sequence_behavior_witness :
    ((runRateChecks none (((0 :: List.replicate 59 0) ++ [1000]).map (fun t => (t, 0)))).2 =
      List.replicate 60 RateCheckResult.allowed ++
        [RateCheckResult.deniedWindow (ceilDiv1000 (0 + RATE_LIMIT_windowMs - 1000))])
    ∧ 0 < ceilDiv1000 (0 + RATE_LIMIT_windowMs - 1000)
    ∧ (normalizeEntry (some ⟨60, 0, 0, 777⟩) 0 1).dailyCount = 0 :=
  have h := governor_sequence_behavior 0 0 (List.replicate 59 0) 1000
    (by decide) (by decide) (by decide)
  ⟨h.1, h.2.1 (by decide), h.2.2 ⟨60, 0, 0, 777⟩ 0 1 (by decide)⟩

set_option maxRecDepth 10000 in
/-- Claim C5 counterexample: a 61st check issued exactly at the window's end instant
(`now = windowStart + windowMs`, still inside the same window since the reset
condition `now - windowStart > windowMs` is false) is denied with `retryAfter = 0`,
which is not strictly positive.  The first 60 checks of the run are all allowed. -/
theorem governor_retryAfter_zero_at_window_edge :
    ((runRateChecks none (((0 :: List.replicate 59 0) ++ [60000]).map (fun t => (t, 0)))).2.getLast?
        = some (RateCheckResult.deniedWindow 0))
    ∧ (runRateChecks none
        (((0 :: List.replicate 59 0) ++ [60000]).map (fun t => (t, 0)))).2.take 60 =
        List.replicate 60 RateCheckResult.allowed := by
  decide

/-! ## Analysis engine (src/public/index.js, `analyzeTimeRange` and helpers) -/

/-- Math.round(s / 60) for a non-negative integer number of seconds `s`
(JavaScript `Math.round` is floor of `x + 1/2` for non-negative `x`). -/
def roundDiv60 (s : Nat) : Nat :=
  (2 * s + 60) / 120

/-- The per-model object stored in compare-all mode
(src/public/index.js lines 341-344): `duration` seconds and its rounded minutes. -/
structure Sample where
  duration : Nat
  durationMinutes : Nat
deriving DecidableEq

/-- Builds the stored object for a fetched duration (src/public/index.js lines 341-344). -/
def mkSample (d : Nat) : Sample :=
  ⟨d, roundDiv60 d⟩

/-- Single-mode traffic classification values (src/public/index.js lines 410-419). -/
inductive TrafficLevel where
  | low
  | medium
  | high
deriving DecidableEq

/-- One `resultEntry` of the orchestrator loop (src/public/index.js lines 332-335).
The JS object gains fields dynamically: `duration`/`durationMinutes` in single mode,
`optimistic`/`best_guess`/`pessimistic` (object or `null`) in compare-all mode, and
`trafficLevel` during single-mode aggregation; absent and `null` are both `none`. -/
structure SlotEntry where
  time : TimeHM
  departureTime : Nat
  duration : Option Nat := none
  durationMinutes : Option Nat := none
  optimistic : Option Sample := none
  best_guess : Option Sample := none
  pessimistic : Option Sample := none
  trafficLevel : Option TrafficLevel := none
deriving DecidableEq

/-- Outcome of one `fetchTravelTime` call (src/public/index.js lines 467-488):
a duration in seconds, or a thrown error carrying a message. -/
inductive FetchOutcome where
  | ok (duration : Nat)
  | fail (err : String)
deriving DecidableEq

/-- Whether the call produced a sample. -/
def FetchOutcome.isOk : FetchOutcome → Bool
  | .ok _ => true
  | .fail _ => false

/-- The travel-time provider as a deterministic oracle from (departure instant in
epoch ms, traffic-model string) to an outcome.  Origin and destination are fixed for
one `analyzeTimeRange` invocation and are absorbed into the oracle. -/
abbrev Provider := Nat → String → FetchOutcome

/-- Analysis mode: `state.trafficModel === 'compare_all'` selects compare-all,
otherwise the single model named by `state.trafficModel`
(src/public/index.js lines 318-325). -/
inductive TrafficMode where
  | single (model : String)
  | compareAll
deriving DecidableEq

/-- The `trafficModels` array of (key, model) pairs (src/public/index.js lines 319-325). -/
def trafficModels : TrafficMode → List (String × String)
  | .compareAll =>
    [("optimistic", "optimistic"), ("best_guess", "best_guess"), ("pessimistic", "pessimistic")]
  | .single m => [("single", m)]

/-- Dynamic field write `resultEntry[key] = v` for the three compare-all keys
(src/public/index.js lines 341, 353). -/
def setModelField (entry : SlotEntry) (key : String) (v : Option Sample) : SlotEntry :=
  if key = "optimistic" then { entry with optimistic := v }
  else if key = "best_guess" then { entry with best_guess := v }
  else if key = "pessimistic" then { entry with pessimistic := v }
  else entry

/-- Inner model loop of the orchestrator (src/public/index.js lines 337-358): for each
(key, model) pair, call the provider; on success store the sample (compare-all) or the
duration (single mode); on failure record the error as the most recent one and, in
compare-all mode, store `null` for that key.  The pacing `sleep` has no effect on the
computed data and is not modelled. -/
def processModels (p : Provider) (mode : TrafficMode) (dep : Nat) :
    List (String × String) → SlotEntry → Option String → SlotEntry × Option String
  | [], entry, lastError => (entry, lastError)
  | (key, model) :: rest, entry, lastError =>
    match p dep model with
    | .ok d =>
      match mode with
      | .compareAll =>
        processModels p mode dep rest (setModelField entry key (some (mkSample d))) lastError
      | .single _ =>
        processModels p mode dep rest
          { entry with duration := some d, durationMinutes := some (roundDiv60 d) } lastError
    | .fail err =>
      match mode with
      | .compareAll => processModels p mode dep rest (setModelField entry key none) (some err)
      | .single _ => processModels p mode dep rest entry (some err)

/-- Processing of one slot: fresh `resultEntry` then the model loop
(src/public/index.js lines 331-358). -/
def processSlot (p : Provider) (mode : TrafficMode) (time : TimeHM) (dep : Nat)
    (lastError : Option String) : SlotEntry × Option String :=
  processModels p mode dep (trafficModels mode) { time := time, departureTime := dep } lastError

/-- JavaScript truthiness of the number field `resultEntry.duration`:
`undefined` and `0` are falsy. -/
def jsTruthyNat : Option Nat → Bool
  | none => false
  | some d => d != 0

/-- Keep rule for a processed slot (src/public/index.js lines 360-366): compare-all
keeps the entry when at least one of the three keys holds an object (truthy even for
duration 0, while `null` is falsy); single mode tests truthiness of the number
`resultEntry.duration` itself. -/
def keepEntry (mode : TrafficMode) (e : SlotEntry) : Bool :=
  match mode with
  | .compareAll => e.optimistic.isSome || e.best_guess.isSome || e.pessimistic.isSome
  | .single _ => jsTruthyNat e.duration

/-- Outer slot loop of the orchestrator (src/public/index.js lines 330-367): process
the future slots in order, pushing kept entries and threading the most recent error. -/
def processSlotsAux (p : Provider) (mode : TrafficMode) (dateMs : Nat) :
    List TimeHM → Option String → List SlotEntry × Option String
  | [], lastError => ([], lastError)
  | time :: rest, lastError =>
    let dep := combineDateAndTime dateMs time
    let step := processSlot p mode time dep lastError
    let tail := processSlotsAux p mode dateMs rest step.2
    if keepEntry mode step.1 then (step.1 :: tail.1, tail.2) else tail

/-- The slot loop started with no recorded error (`lastError = null`,
src/public/index.js line 328). -/
def processSlots (p : Provider) (mode : TrafficMode) (dateMs : Nat) (times : List TimeHM) :
    List SlotEntry × Option String :=
  processSlotsAux p mode dateMs times none

/-- JavaScript `Array.prototype.reduce` without an initial value: `none` models the
`TypeError` thrown on an empty array, otherwise a left fold from the first element. -/
def jsReduce (f : α → α → α) : List α → Option α
  | [] => none
  | a :: l => some (l.foldl f a)

/-- Binary `Math.min` on values that may be `Infinity` (`none`). -/
def optMin : Option Nat → Option Nat → Option Nat
  | none, b => b
  | some a, none => some a
  | some a, some b => some (min a b)

/-- `Math.min(...xs)` over a spread list whose members may be `Infinity`;
the empty spread gives `Infinity` (`none`). -/
def jsMinList (xs : List (Option Nat)) : Option Nat :=
  xs.foldl optMin none

/-- `r.model?.duration || 0` (src/public/index.js lines 377-381): an absent sample
contributes 0; a present duration of 0 also coalesces to 0, which is the same value. -/
def jsOrZero : Option Sample → Nat
  | none => 0
  | some s => s.duration

/-- `r.model?.duration || Infinity` (src/public/index.js lines 384-388): an absent
sample contributes `Infinity`, and — by JS falsiness of 0 — so does a present
duration of 0. -/
def jsOrInfinity : Option Sample → Option Nat
  | none => none
  | some s => if s.duration = 0 then none else some s.duration

/-- The number read from `r.duration` in single-mode aggregation; every kept
single-mode entry carries `some` duration, so the `getD 0` default is never the
value actually used there. -/
def durOf (e : SlotEntry) : Nat :=
  e.duration.getD 0

/-- The number read from `r.best_guess.duration`; every member of `validResults`
carries `some` best_guess, so the `getD 0` default is never the value actually used
there. -/
def bgDuration (e : SlotEntry) : Nat :=
  (e.best_guess.map Sample.duration).getD 0

/-- Single-mode classification (src/public/index.js lines 410-419):
`ratio = duration / minDuration`, `low` if `ratio < 1.2`
(`CONFIG.TRAFFIC_THRESHOLDS.LOW`), `medium` if `ratio < 1.4`
(`CONFIG.TRAFFIC_THRESHOLDS.MEDIUM`), else `high`.  The real-division comparisons
are expressed by cross-multiplication: `d / m < 6/5` iff `5d < 6m`, and
`d / m < 7/5` iff `5d < 7m` (for `m = 0` both sides are false, matching the JS
`Infinity`/`NaN` comparisons). -/
def classifyTrafficLevel (duration minDuration : Nat) : TrafficLevel :=
  if 5 * duration < 6 * minDuration then .low
  else if 5 * duration < 7 * minDuration then .medium
  else .high

/-- Terminal failures of `analyzeTimeRange`, one constructor per throw site:
`noFutureSlots` (lines 312-316, carrying the period name and formatted time range),
`thrownLast` (line 370, re-throwing the last provider error), `fetchFailed`
(line 371, the generic connectivity message), and `emptyReduce` (the `TypeError`
from reducing an empty `validResults` array with no initial value). -/
inductive AnalysisError where
  | noFutureSlots (periodName timeRange : String)
  | thrownLast (err : String)
  | fetchFailed (message : String)
  | emptyReduce
deriving DecidableEq

/-- The object returned by `analyzeTimeRange` (src/public/index.js lines 398-405 and
428-435).  `minDuration` is `Option Nat` because the compare-all `globalMin` (and the
single-mode `Math.min` over an empty spread) can be `Infinity` (`none`).  The source
also sets a presentation flag `isOptimal = true` on the chosen entry by object
reference; no analysed property depends on it and it is not modelled. -/
structure AnalysisResult where
  times : List SlotEntry
  optimal : SlotEntry
  savingsMinutes : Nat
  minDuration : Option Nat
  maxDuration : Nat
  isCompareAll : Bool
deriving DecidableEq

/-- Single-model aggregation (src/public/index.js lines 406-436): min and max over
the kept durations, per-slot traffic levels, first-minimal optimal via `reduce`, and
`savingsMinutes = Math.round((maxDuration - optimal.duration) / 60)`.  The source
computes min/max, then annotates the entries in place, then reduces over the
annotated array; on an empty array the `reduce` is the first observable failure. -/
def aggregateSingle (results : List SlotEntry) : Except AnalysisError AnalysisResult :=
  let minDuration := jsMinList (results.map (fun r => some (durOf r)))
  let maxDuration := (results.map durOf).foldl max 0
  let annotated := results.map (fun r =>
    { r with trafficLevel := some (classifyTrafficLevel (durOf r) (minDuration.getD 0)) })
  match jsReduce (fun best current => if durOf current < durOf best then current else best)
      annotated with
  | none => .error .emptyReduce
  | some optimal =>
    .ok { times := annotated, optimal := optimal,
          savingsMinutes := roundDiv60 (maxDuration - durOf optimal),
          minDuration := minDuration, maxDuration := maxDuration, isCompareAll := false }

/-- The inner `Math.max(opt || 0, bg || 0, pess || 0)` of one slot
(src/public/index.js lines 377-381). -/
def slotAllMax (r : SlotEntry) : Nat :=
  max (jsOrZero r.optimistic) (max (jsOrZero r.best_guess) (jsOrZero r.pessimistic))

/-- The inner `Math.min(opt || Infinity, bg || Infinity, pess || Infinity)` of one
slot (src/public/index.js lines 384-388). -/
def slotAllMin (r : SlotEntry) : Option Nat :=
  optMin (jsOrInfinity r.optimistic) (optMin (jsOrInfinity r.best_guess) (jsOrInfinity r.pessimistic))

/-- Compare-all aggregation (src/public/index.js lines 374-405): `validResults` keeps
the slots whose `best_guess` is truthy, `maxDuration`/`globalMin` range over all three
models of all kept slots, the optimal slot is the first `validResults` member with
minimal `best_guess` duration (strict-less `reduce`), and the returned `minDuration`
is `globalMin`.  (The duplicate in src/unnamed/part_000 additionally binds an unused
`minDuration` over `validResults` and returns the same fields.) -/
def aggregateCompare (results : List SlotEntry) : Except AnalysisError AnalysisResult :=
  let validResults := results.filter (fun r => r.best_guess.isSome)
  let maxDuration := (results.map slotAllMax).foldl max 0
  let globalMin := jsMinList (results.map slotAllMin)
  match jsReduce (fun best current => if bgDuration current < bgDuration best then current else best)
      validResults with
  | none => .error .emptyReduce
  | some optimal =>
    .ok { times := results, optimal := optimal,
          savingsMinutes := roundDiv60 (maxDuration - bgDuration optimal),
          minDuration := globalMin, maxDuration := maxDuration, isCompareAll := true }

/-- The four commute window settings (src/public/index.js lines 40-45). -/
structure TimeSettings where
  morningStart : TimeHM
  morningEnd : TimeHM
  eveningStart : TimeHM
  eveningEnd : TimeHM
deriving DecidableEq

/-- Window start selection (src/public/index.js lines 298-299). -/
def windowStartOf (tset : TimeSettings) (direction : String) : TimeHM :=
  if direction == "morning" then tset.morningStart else tset.eveningStart

/-- Window end selection (src/public/index.js line 300). -/
def windowEndOf (tset : TimeSettings) (direction : String) : TimeHM :=
  if direction == "morning" then tset.morningEnd else tset.eveningEnd

/-- Period name used in the no-future-slots message (src/public/index.js line 313). -/
def periodNameOf (direction : String) : String :=
  if direction == "morning" then "morning" else "evening"

/-- `analyzeTimeRange(direction)` (src/public/index.js lines 297-437): generate the
slot grid, filter to strictly future departure instants against the single `now`
captured at analysis start, fail with the no-future-slots message when none remain,
run the provider loop, fail when nothing was kept (re-throwing the last provider
error when one exists, else the generic connectivity error), and otherwise aggregate
according to the mode.  Origin/destination selection (lines 301-302) only routes
addresses into the provider calls and is absorbed into the provider oracle. -/
def analyzeTimeRange (tset : TimeSettings) (selectedDateMs now : Nat) (mode : TrafficMode)
    (p : Provider) (direction : String) : Except AnalysisError AnalysisResult :=
  let startT := windowStartOf tset direction
  let endT := windowEndOf tset direction
  let times := generateTimeSlots startT endT CONFIG_INTERVAL_MINUTES
  let futureTimes := times.filter (fun t => now < combineDateAndTime selectedDateMs t)
  if futureTimes.isEmpty then
    .error (.noFutureSlots (periodNameOf direction) (formatTime startT ++ " - " ++ formatTime endT))
  else
    let processed := processSlots p mode selectedDateMs futureTimes
    if processed.1.isEmpty then
      match processed.2 with
      | some err => .error (.thrownLast err)
      | none => .error (.fetchFailed "Failed to fetch travel times. Please check your addresses.")
    else
      match mode with
      | .compareAll => aggregateCompare processed.1
      | .single _ => aggregateSingle processed.1

/-! ## Claims about the slot generator (C2, C9) -/

theorem generateTimeSlotsAux_unfold (current endTotal interval : Nat) :
    generateTimeSlotsAux current endTotal interval =
      if 0 < interval ∧ current ≤ endTotal then
        slotOfMinutes current :: generateTimeSlotsAux (current + interval) endTotal interval
      else [] := by
  rw [generateTimeSlotsAux]
  simp

/-- The same loop as `generateTimeSlotsAux`, driven by explicit fuel; being
structurally recursive it evaluates inside `decide`/`rfl`, which the well-founded
original does not. -/
def genSlotsFuel : Nat → Nat → Nat → Nat → List TimeHM
  | 0, _, _, _ => []
  | fuel + 1, current, endTotal, interval =>
    if 0 < interval ∧ current ≤ endTotal then
      slotOfMinutes current :: genSlotsFuel fuel (current + interval) endTotal interval
    else []

theorem generateTimeSlotsAux_eq_fuel :
    ∀ (fuel current endTotal interval : Nat), endTotal + 1 - current ≤ fuel →
      generateTimeSlotsAux current endTotal interval =
        genSlotsFuel fuel current endTotal interval := by
  intro fuel
  induction fuel with
  | zero =>
    intro c e i h
    rw [generateTimeSlotsAux_unfold, if_neg]
    · simp [genSlotsFuel]
    · rintro ⟨-, h2⟩; omega
  | succ fuel ih =>
    intro c e i h
    rw [generateTimeSlotsAux_unfold]
    by_cases hc : 0 < i ∧ c ≤ e
    · rw [if_pos hc]
      simp only [genSlotsFuel, if_pos hc]
      rw [ih (c + i) e i (by omega)]
    · rw [if_neg hc]
      simp only [genSlotsFuel, if_neg hc]

theorem generateTimeSlots_eval (s e : TimeHM) (i : Nat) :
    generateTimeSlots s e i =
      genSlotsFuel (e.toMinutes + 1 - s.toMinutes) s.toMinutes e.toMinutes i := by
  rw [generateTimeSlots]
  exact generateTimeSlotsAux_eq_fuel _ _ _ _ (le_refl _)

/-- Claim C2 (amended): for every pair of times-of-day with the end earlier than the
start and every positive interval, `generateTimeSlots` returns the empty slot list and
returns normally — the source contains no `InvalidWindow` failure; its `while` guard
is simply false at the first iteration.  (Downstream, the empty list makes the
future-slot filter empty, so the analysis then fails with the no-future-slots
error, not with an invalid-window one.) -/
theorem generateTimeSlots_empty_of_end_before_start :
    ∀ (startT endT : TimeHM) (interval : Nat), 0 < interval →
      endT.toMinutes < startT.toMinutes →
      generateTimeSlots startT endT interval = [] := by
  intro s e i _ hlt
  rw [generateTimeSlots, generateTimeSlotsAux_unfold, if_neg]
  rintro ⟨-, h2⟩
  omega

theorem generateTimeSlots_empty_of_end_before_start_witness :
    0 < 15 ∧ (⟨6, 0⟩ : TimeHM).toMinutes < (⟨10, 0⟩ : TimeHM).toMinutes
      ∧ generateTimeSlots ⟨10, 0⟩ ⟨6, 0⟩ 15 = [] :=
  ⟨by decide, by decide,
    generateTimeSlots_empty_of_end_before_start ⟨10, 0⟩ ⟨6, 0⟩ 15 (by decide) (by decide)⟩

/-- Claim C2 counterexample: `generate("10:00", "06:00", 15)` does not fail — it
returns normally with the empty list, so the claimed `InvalidWindow` failure does not
exist in the code. -/
theorem generateTimeSlots_inverted_window_returns_nil :
    generateTimeSlots ⟨10, 0⟩ ⟨6, 0⟩ 15 = [] := by
  rw [generateTimeSlots_eval]
  decide

set_option maxRecDepth 10000 in
/-- Claim C9 (confirmed): `generate("06:00", "10:00", 15)` returns exactly 17 slots,
the first "06:00" and the last "10:00" (both endpoints on the grid), consecutive
slots strictly increasing by exactly 15 minutes. -/
theorem generateTimeSlots_morning_window_demo :
    (generateTimeSlots ⟨6, 0⟩ ⟨10, 0⟩ 15).map slotString =
      ["06:00", "06:15", "06:30", "06:45", "07:00", "07:15", "07:30", "07:45",
        "08:00", "08:15", "08:30", "08:45", "09:00", "09:15", "09:30", "09:45", "10:00"]
    ∧ (generateTimeSlots ⟨6, 0⟩ ⟨10, 0⟩ 15).length = 17
    ∧ List.Chain' (fun a b => b.toMinutes = a.toMinutes + 15)
        (generateTimeSlots ⟨6, 0⟩ ⟨10, 0⟩ 15) := by
  have hgen : generateTimeSlots ⟨6, 0⟩ ⟨10, 0⟩ 15 =
      [⟨6, 0⟩, ⟨6, 15⟩, ⟨6, 30⟩, ⟨6, 45⟩, ⟨7, 0⟩, ⟨7, 15⟩, ⟨7, 30⟩, ⟨7, 45⟩,
        ⟨8, 0⟩, ⟨8, 15⟩, ⟨8, 30⟩, ⟨8, 45⟩, ⟨9, 0⟩, ⟨9, 15⟩, ⟨9, 30⟩, ⟨9, 45⟩, ⟨10, 0⟩] := by
    rw [generateTimeSlots_eval]
    decide
  rw [hgen]
  refine ⟨by decide, by decide,
    by norm_num [List.chain'_cons, List.chain'_singleton, TimeHM.toMinutes]⟩

/-! ## Claims about the keep rule (C6) and aggregation (C1, C10) -/

/-- Claim C6 (amended): in compare-all mode a processed slot is kept iff at least one
of the three model calls produced a sample (as claimed); in single mode the slot is
kept iff its one call succeeded with a nonzero duration — the source tests JavaScript
truthiness of the number `resultEntry.duration`, so a successful call returning a
0-second duration is dropped. -/
theorem keep_rule_characterization :
    ∀ (p : Provider) (t : TimeHM) (dep : Nat) (le : Option String) (model : String),
      (keepEntry .compareAll (processSlot p .compareAll t dep le).1 =
        ((p dep "optimistic").isOk || (p dep "best_guess").isOk || (p dep "pessimistic").isOk))
      ∧ (keepEntry (.single model) (processSlot p (.single model) t dep le).1 =
          (match p dep model with
            | .ok d => d != 0
            | .fail _ => false)) := by
  intro p t dep le model
  constructor
  · rcases h1 : p dep "optimistic" with d1 | e1 <;>
      rcases h2 : p dep "best_guess" with d2 | e2 <;>
        rcases h3 : p dep "pessimistic" with d3 | e3 <;>
          simp [processSlot, processModels, trafficModels, setModelField, keepEntry,
            h1, h2, h3, FetchOutcome.isOk]
  · rcases h : p dep model with d | e <;>
      simp [processSlot, processModels, trafficModels, keepEntry, jsTruthyNat, h]

/-- Claim C6 counterexample: a provider call that succeeds with duration 0 in single
mode produces a sample, yet the slot is not kept (`resultEntry.duration` is the falsy
number 0). -/
theorem single_mode_zero_duration_slot_dropped :
    (FetchOutcome.ok 0).isOk = true
    ∧ keepEntry (.single "best_guess")
        (processSlot (fun _ _ => FetchOutcome.ok 0) (.single "best_guess") ⟨6, 0⟩ 0 none).1
        = false := by
  decide

/-- Claim C10 (confirmed): when kept slots exist but none carries a `best_guess`
sample, compare-all aggregation filters `validResults` down to the empty array and
`reduce` with no initial value throws — modelled as the `emptyReduce` error, which is
outside the spec's failure taxonomy; no `AnalysisResult` is produced. -/
theorem aggregateCompare_no_best_guess_aborts :
    ∀ results : List SlotEntry, results ≠ [] →
      (∀ r ∈ results, r.best_guess = none) →
      aggregateCompare results = .error .emptyReduce := by
  intro results hne hall
  have hfilter : results.filter (fun r => r.best_guess.isSome) = [] := by
    rw [List.filter_eq_nil_iff]
    intro a ha
    simp [hall a ha]
  simp [aggregateCompare, hfilter, jsReduce]

/-- A kept compare-all entry whose `best_guess` call failed while `pessimistic`
succeeded. -/
def noBgEntry : SlotEntry :=
  { time := ⟨6, 0⟩, departureTime := 21600000, pessimistic := some (mkSample 500) }

theorem aggregateCompare_no_best_guess_aborts_witness :
    ([noBgEntry] ≠ ([] : List SlotEntry)) ∧ (∀ r ∈ [noBgEntry], r.best_guess = none)
    ∧ aggregateCompare [noBgEntry] = .error .emptyReduce :=
  ⟨by decide, by decide,
    aggregateCompare_no_best_guess_aborts [noBgEntry] (by decide) (by decide)⟩

/-- The three kept single-mode slots of the spec's worked example: durations 600,
700 and 1000 seconds at 06:00, 06:15 and 06:30 of the selected date. -/
def demoSingleResults : List SlotEntry :=
  [{ time := ⟨6, 0⟩, departureTime := 21600000, duration := some 600, durationMinutes := some 10 },
    { time := ⟨6, 15⟩, departureTime := 22500000, duration := some 700, durationMinutes := some 12 },
    { time := ⟨6, 30⟩, departureTime := 23400000, duration := some 1000, durationMinutes := some 17 }]

/-- Claim C1 (amended): for the three kept slots with durations [600, 700, 1000] in
single mode, aggregation yields `minDuration = 600`, `maxDuration = 1000`, per-slot
traffic levels [low, low, high] (700/600 ≈ 1.17 < 1.2 classifies as low by the
strict-less-than rule, not medium as the claim's example says), selects the
600-second 06:00 slot as optimal, and `savingsMinutes = round((1000-600)/60) = 7`. -/
theorem single_mode_demo_aggregation :
    (aggregateSingle demoSingleResults).toOption.map (fun res =>
        (res.minDuration, res.maxDuration, res.savingsMinutes, res.optimal.duration,
          res.optimal.time, res.times.map SlotEntry.trafficLevel)) =
      some (some 600, 1000, 7, some 600, ⟨6, 0⟩,
        [some TrafficLevel.low, some TrafficLevel.low, some TrafficLevel.high]) := by
  rfl

/-- Claim C1 counterexample: the per-slot levels the code computes for durations
[600, 700, 1000] are [low, low, high], not the claimed [low, medium, high] — the 700
second slot has ratio 7/6 < 1.2 and the strict-less-than rule classifies it low. -/
theorem single_mode_demo_second_slot_level :
    (aggregateSingle demoSingleResults).toOption.map (fun res =>
        res.times.map SlotEntry.trafficLevel) =
      some [some TrafficLevel.low, some TrafficLevel.low, some TrafficLevel.high]
    ∧ ¬ ((aggregateSingle demoSingleResults).toOption.map (fun res =>
        res.times.map SlotEntry.trafficLevel) =
      some [some TrafficLevel.low, some TrafficLevel.medium, some TrafficLevel.high]) := by
  refine ⟨rfl, ?_⟩
  intro hcontra
  rw [show (aggregateSingle demoSingleResults).toOption.map (fun res =>
      res.times.map SlotEntry.trafficLevel) =
    some [some TrafficLevel.low, some TrafficLevel.low, some TrafficLevel.high] from rfl] at hcontra
  simp at hcontra

/-! ## Claims about slot filtering (C7) and batch failure (C8) -/

theorem processModels_congr (p q : Provider) (mode : TrafficMode) (dep : Nat)
    (h : ∀ m, p dep m = q dep m) :
    ∀ (kms : List (String × String)) (entry : SlotEntry) (le : Option String),
      processModels p mode dep kms entry le = processModels q mode dep kms entry le := by
  intro kms
  induction kms with
  | nil => intro entry le; rfl
  | cons km rest ih =>
    intro entry le
    obtain ⟨key, model⟩ := km
    simp only [processModels, h model]
    rcases hq : q dep model with d | err <;> cases mode <;> simp only [] <;> apply ih

theorem processSlots_congr (p q : Provider) (mode : TrafficMode) (dateMs : Nat) :
    ∀ (ts : List TimeHM),
      (∀ t ∈ ts, ∀ m,
        p (combineDateAndTime dateMs t) m = q (combineDateAndTime dateMs t) m) →
      processSlots p mode dateMs ts = processSlots q mode dateMs ts := by
  have haux : ∀ (ts : List TimeHM) (le : Option String),
      (∀ t ∈ ts, ∀ m,
        p (combineDateAndTime dateMs t) m = q (combineDateAndTime dateMs t) m) →
      processSlotsAux p mode dateMs ts le = processSlotsAux q mode dateMs ts le := by
    intro ts
    induction ts with
    | nil => intro le _; rfl
    | cons t rest ih =>
      intro le h
      have hslot := processModels_congr p q mode (combineDateAndTime dateMs t)
        (h t (List.mem_cons_self t rest)) (trafficModels mode)
        { time := t, departureTime := combineDateAndTime dateMs t } le
      simp only [processSlotsAux, processSlot]
      rw [hslot, ih _ (fun x hx m => h x (List.mem_cons_of_mem _ hx) m)]
  intro ts h
  exact haux ts none h

/-- Claim C7 (confirmed), first part as provider-independence: the value of the
provider at instants `≤ now` cannot influence the analysis, because the slots bound
to those instants are filtered out before the provider loop runs; second part: when
every slot of the window is bound to an instant `≤ now`, the analysis fails with the
no-future-slots error naming the period (morning/evening) and the formatted time
range, instead of returning an empty result. -/
theorem future_filter_and_noFutureSlots :
    ∀ (tset : TimeSettings) (dateMs now : Nat) (mode : TrafficMode) (direction : String),
      (∀ p q : Provider, (∀ t m, now < t → p t m = q t m) →
        analyzeTimeRange tset dateMs now mode p direction =
          analyzeTimeRange tset dateMs now mode q direction)
      ∧ (∀ p : Provider,
          (∀ s ∈ generateTimeSlots (windowStartOf tset direction) (windowEndOf tset direction)
              CONFIG_INTERVAL_MINUTES, combineDateAndTime dateMs s ≤ now) →
          analyzeTimeRange tset dateMs now mode p direction =
            .error (.noFutureSlots (periodNameOf direction)
              (formatTime (windowStartOf tset direction) ++ " - "
                ++ formatTime (windowEndOf tset direction)))) := by
  intro tset dateMs now mode direction
  constructor
  · intro p q hagree
    simp only [analyzeTimeRange]
    have hps : processSlots p mode dateMs
        ((generateTimeSlots (windowStartOf tset direction) (windowEndOf tset direction)
          CONFIG_INTERVAL_MINUTES).filter (fun t => now < combineDateAndTime dateMs t)) =
        processSlots q mode dateMs
        ((generateTimeSlots (windowStartOf tset direction) (windowEndOf tset direction)
          CONFIG_INTERVAL_MINUTES).filter (fun t => now < combineDateAndTime dateMs t)) := by
      apply processSlots_congr
      intro t ht m
      have hmem := List.of_mem_filter ht
      exact hagree _ m (by simpa using hmem)
    rw [hps]
  · intro p hall
    simp only [analyzeTimeRange]
    have hfilter : (generateTimeSlots (windowStartOf tset direction)
        (windowEndOf tset direction) CONFIG_INTERVAL_MINUTES).filter
          (fun t => now < combineDateAndTime dateMs t) = [] := by
      rw [List.filter_eq_nil_iff]
      intro a ha
      have := hall a ha
      simp only [decide_eq_true_eq]
      omega
    rw [hfilter]
    rfl

/-- The default commute windows (src/public/index.js lines 19-24). -/
def demoTimeSettings : TimeSettings :=
  ⟨⟨6, 0⟩, ⟨10, 0⟩, ⟨16, 0⟩, ⟨20, 0⟩⟩

theorem future_filter_and_noFutureSlots_witness :
    (analyzeTimeRange demoTimeSettings 0 1000000000 (.single "pessimistic")
        (fun _ _ => FetchOutcome.fail "a") "morning" =
      analyzeTimeRange demoTimeSettings 0 1000000000 (.single "pessimistic")
        (fun t _ => if 1000000000 < t then FetchOutcome.fail "a" else FetchOutcome.fail "b")
        "morning")
    ∧ analyzeTimeRange demoTimeSettings 0 1000000000 (.single "pessimistic")
        (fun _ _ => FetchOutcome.fail "a") "morning" =
      .error (.noFutureSlots "morning" "6:00 AM - 10:00 AM") := by
  constructor
  · exact (future_filter_and_noFutureSlots demoTimeSettings 0 1000000000
      (.single "pessimistic") "morning").1
      (fun _ _ => FetchOutcome.fail "a")
      (fun t _ => if 1000000000 < t then FetchOutcome.fail "a" else FetchOutcome.fail "b")
      (fun t m h => by simp [h])
  · have h2 := (future_filter_and_noFutureSlots demoTimeSettings 0 1000000000
      (.single "pessimistic") "morning").2
      (fun _ _ => FetchOutcome.fail "a")
      (by rw [generateTimeSlots_eval]; decide)
    exact h2.trans rfl

/-- The chronological list of per-call failure messages for one slot: the model list
is traversed in order and each failing call contributes its error. -/
def modelErrors (p : Provider) (dep : Nat) (kms : List (String × String)) : List String :=
  kms.filterMap (fun km =>
    match p dep km.2 with
    | .ok _ => none
    | .fail err => some err)

/-- The chronological list of per-call failure messages of the whole batch, in
slot-then-model order — the order in which the source's sequential loop observes
them. -/
def callErrors (p : Provider) (mode : TrafficMode) (dateMs : Nat) (times : List TimeHM) :
    List String :=
  (times.map (fun t => modelErrors p (combineDateAndTime dateMs t) (trafficModels mode))).flatten

/-- The value of a `lastError`-style accumulator after observing the errors of
`errs` in order, starting from `le`. -/
def lastErrorAfter (le : Option String) (errs : List String) : Option String :=
  errs.foldl (fun _ e => some e) le

theorem processModels_snd (p : Provider) (mode : TrafficMode) (dep : Nat) :
    ∀ (kms : List (String × String)) (entry : SlotEntry) (le : Option String),
      (processModels p mode dep kms entry le).2 = lastErrorAfter le (modelErrors p dep kms) := by
  intro kms
  induction kms with
  | nil => intro entry le; rfl
  | cons km rest ih =>
    intro entry le
    obtain ⟨key, model⟩ := km
    rcases h : p dep model with d | err <;> cases mode <;>
      simp [processModels, modelErrors, lastErrorAfter, List.filterMap_cons, h, ih]

theorem lastErrorAfter_append (le : Option String) (xs ys : List String) :
    lastErrorAfter le (xs ++ ys) = lastErrorAfter (lastErrorAfter le xs) ys :=
  List.foldl_append _ _ _ _

theorem processSlotsAux_snd (p : Provider) (mode : TrafficMode) (dateMs : Nat) :
    ∀ (ts : List TimeHM) (le : Option String),
      (processSlotsAux p mode dateMs ts le).2 = lastErrorAfter le (callErrors p mode dateMs ts) := by
  intro ts
  induction ts with
  | nil => intro le; rfl
  | cons t rest ih =>
    intro le
    simp only [processSlotsAux, callErrors, List.map_cons, List.flatten_cons]
    rw [lastErrorAfter_append]
    have hm := processModels_snd p mode (combineDateAndTime dateMs t) (trafficModels mode)
      { time := t, departureTime := combineDateAndTime dateMs t } le
    split <;>
      simpa [processSlot, callErrors, hm] using
        ih (processSlot p mode t (combineDateAndTime dateMs t) le).2

theorem lastErrorAfter_none (errs : List String) :
    lastErrorAfter none errs = errs.getLast? := by
  have general : ∀ (es : List String) (le : Option String),
      lastErrorAfter le es = match es.getLast? with | some e => some e | none => le := by
    intro es
    induction es with
    | nil => intro le; rfl
    | cons e es ih =>
      intro le
      have h1 : lastErrorAfter le (e :: es) = lastErrorAfter (some e) es := rfl
      rw [h1, ih]
      cases hes : es.getLast? with
      | none =>
        have : es = [] := List.getLast?_eq_none_iff.mp hes
        subst this
        rfl
      | some x =>
        have hcons : (e :: es).getLast? = some x := by
          cases es with
          | nil => simp at hes
          | cons b bs => rw [List.getLast?_cons_cons]; exact hes
        rw [hcons]
  rw [general]
  cases errs.getLast? <;> rfl

/-- Claim C8 (confirmed): if the future-slot list is non-empty but after processing
every slot zero slots were kept, the analysis fails by re-throwing the last observed
per-call provider error when at least one call failed (`thrownLast`, the
all-slots-failed outcome carrying that error), and otherwise fails with the generic
connectivity error. -/
theorem allSlotsFailed_last_error :
    ∀ (tset : TimeSettings) (dateMs now : Nat) (mode : TrafficMode) (p : Provider)
      (direction : String) (futs : List TimeHM),
      futs = (generateTimeSlots (windowStartOf tset direction) (windowEndOf tset direction)
        CONFIG_INTERVAL_MINUTES).filter (fun t => now < combineDateAndTime dateMs t) →
      futs ≠ [] → (processSlots p mode dateMs futs).1 = [] →
      (processSlots p mode dateMs futs).2 = (callErrors p mode dateMs futs).getLast?
      ∧ analyzeTimeRange tset dateMs now mode p direction =
          (match (callErrors p mode dateMs futs).getLast? with
            | some err => .error (.thrownLast err)
            | none =>
              .error (.fetchFailed "Failed to fetch travel times. Please check your addresses.")) := by
  intro tset dateMs now mode p direction futs hfuts hne hempty
  have hsnd : (processSlots p mode dateMs futs).2 = (callErrors p mode dateMs futs).getLast? := by
    rw [processSlots, processSlotsAux_snd, lastErrorAfter_none]
  refine ⟨hsnd, ?_⟩
  simp only [analyzeTimeRange, ← hfuts]
  have hne' : futs.isEmpty = false := by
    cases futs with
    | nil => exact absurd rfl hne
    | cons a l => rfl
  rw [hne']
  simp only [Bool.false_eq_true, if_false]
  rw [hempty, hsnd]
  simp

theorem allSlotsFailed_last_error_witness :
    (analyzeTimeRange demoTimeSettings 0 0 (.single "pessimistic")
        (fun _ _ => FetchOutcome.fail "boom") "morning" = .error (.thrownLast "boom"))
    ∧ (analyzeTimeRange demoTimeSettings 0 0 (.single "pessimistic")
        (fun _ _ => FetchOutcome.ok 0) "morning" =
      .error (.fetchFailed "Failed to fetch travel times. Please check your addresses.")) := by
  constructor
  · have h := allSlotsFailed_last_error demoTimeSettings 0 0 (.single "pessimistic")
      (fun _ _ => FetchOutcome.fail "boom") "morning" _ rfl
      (by rw [generateTimeSlots_eval]; decide) (by rw [generateTimeSlots_eval]; decide)
    exact h.2.trans (by rw [generateTimeSlots_eval]; rfl)
  · have h := allSlotsFailed_last_error demoTimeSettings 0 0 (.single "pessimistic")
      (fun _ _ => FetchOutcome.ok 0) "morning" _ rfl
      (by rw [generateTimeSlots_eval]; decide) (by rw [generateTimeSlots_eval]; decide)
    exact h.2.trans (by rw [generateTimeSlots_eval]; rfl)

/-! ## Claim C3: compare-all extrema and optimal-slot selection -/

/-- The durations of the samples actually present on one entry, in model order. -/
def entrySamples (r : SlotEntry) : List Nat :=
  (r.optimistic.map Sample.duration).toList ++ (r.best_guess.map Sample.duration).toList
    ++ (r.pessimistic.map Sample.duration).toList

/-- All sample durations present across a list of entries, in slot-then-model order. -/
def allSamples (results : List SlotEntry) : List Nat :=
  (results.map entrySamples).flatten

theorem foldl_max_shift (l : List Nat) : ∀ a : Nat, l.foldl max a = max a (l.foldl max 0) := by
  induction l with
  | nil => intro a; simp
  | cons b l ih =>
    intro a
    simp only [List.foldl_cons]
    rw [ih (max a b), ih (max 0 b)]
    omega

theorem foldl_max_flatten (ls : List (List Nat)) :
    (ls.map (fun l => l.foldl max 0)).foldl max 0 = ls.flatten.foldl max 0 := by
  induction ls with
  | nil => rfl
  | cons l ls ih =>
    simp only [List.map_cons, List.flatten_cons, List.foldl_cons, List.foldl_append]
    rw [foldl_max_shift (ls.map (fun l => l.foldl max 0)), foldl_max_shift ls.flatten, ← ih]
    omega

theorem optMin_none_right (a : Option Nat) : optMin a none = a := by
  cases a <;> rfl

theorem optMin_assoc (a b c : Option Nat) :
    optMin (optMin a b) c = optMin a (optMin b c) := by
  cases a <;> cases b <;> cases c <;> simp [optMin, Nat.min_assoc]

theorem foldl_optMin_shift (l : List (Option Nat)) :
    ∀ a : Option Nat, l.foldl optMin a = optMin a (l.foldl optMin none) := by
  induction l with
  | nil => intro a; exact (optMin_none_right a).symm
  | cons b l ih =>
    intro a
    simp only [List.foldl_cons]
    rw [ih (optMin a b), ih (optMin none b)]
    rw [optMin_assoc]
    rfl

theorem jsMinList_flatten (ls : List (List (Option Nat))) :
    jsMinList (ls.map jsMinList) = jsMinList ls.flatten := by
  induction ls with
  | nil => rfl
  | cons l ls ih =>
    simp only [List.map_cons, List.flatten_cons, jsMinList, List.foldl_cons, List.foldl_append]
    rw [foldl_optMin_shift (ls.map jsMinList), foldl_optMin_shift ls.flatten]
    have h1 : (optMin none (jsMinList l)) = jsMinList l := rfl
    simp only [jsMinList] at ih
    rw [ih]
    rfl

theorem jsMinList_map_some (xs : List Nat) : jsMinList (xs.map some) = xs.min? := by
  have key : ∀ (l : List Nat) (a : Nat), (l.map some).foldl optMin (some a) = some (l.foldl min a) := by
    intro l
    induction l with
    | nil => intro a; rfl
    | cons b l ih => intro a; simpa [optMin] using ih (min a b)
  cases xs with
  | nil => rfl
  | cons a l =>
    rw [List.min?_cons']
    simpa [jsMinList, optMin] using key l a

theorem foldl_max_eq_max? (xs : List Nat) (h : xs ≠ []) :
    xs.max? = some (xs.foldl max 0) := by
  cases xs with
  | nil => exact absurd rfl h
  | cons a l =>
    rw [List.max?_cons']
    simp [Nat.zero_max]

/-- For a strict-less-than `reduce`, the fold over `a :: l` returns the first element
attaining the minimum of `f`: everything before it is strictly larger and everything
after it is at least as large. -/
theorem jsReduce_first_min {α : Type} (f : α → Nat) :
    ∀ (l : List α) (a : α),
      ∃ l1 l2 r,
        l.foldl (fun best current => if f current < f best then current else best) a = r
        ∧ a :: l = l1 ++ r :: l2
        ∧ (∀ x ∈ l1, f r < f x) ∧ (∀ x ∈ l2, f r ≤ f x) := by
  intro l
  induction l with
  | nil =>
    intro a
    exact ⟨[], [], a, rfl, rfl, by simp, by simp⟩
  | cons c l ih =>
    intro a
    by_cases hc : f c < f a
    · obtain ⟨l1, l2, r, hfold, hdecomp, hl1, hl2⟩ := ih c
      refine ⟨a :: l1, l2, r, ?_, ?_, ?_, hl2⟩
      · simpa [hc] using hfold
      · rw [List.cons_append, ← hdecomp]
      · intro x hx
        rcases List.mem_cons.mp hx with hxa | hx1
        · subst hxa
          have hr_le_c : f r ≤ f c := by
            cases l1 with
            | nil =>
              injection hdecomp with hcr _
              rw [hcr]
            | cons y l1' =>
              injection hdecomp with hcy _
              subst hcy
              exact le_of_lt (hl1 c (List.mem_cons_self c l1'))
          omega
        · exact hl1 x hx1
    · obtain ⟨l1, l2, r, hfold, hdecomp, hl1, hl2⟩ := ih a
      cases l1 with
      | nil =>
        injection hdecomp with har hl
        refine ⟨[], c :: l2, r, ?_, ?_, by simp, ?_⟩
        · simpa [hc] using hfold
        · rw [List.nil_append, ← har, ← hl]
        · intro x hx
          rcases List.mem_cons.mp hx with hxc | hx2
          · subst hxc
            rw [← har]
            omega
          · exact hl2 x hx2
      | cons y l1' =>
        injection hdecomp with hay hrest
        subst hay
        refine ⟨a :: c :: l1', l2, r, ?_, ?_, ?_, hl2⟩
        · simpa [hc] using hfold
        · rw [List.cons_append, List.cons_append, hrest]
          rfl
        · intro x hx
          have hra : f r < f a := hl1 a (List.mem_cons_self a l1')
          rcases List.mem_cons.mp hx with hxa | hx'
          · subst hxa; exact hra
          · rcases List.mem_cons.mp hx' with hxc | hx1'
            · subst hxc; omega
            · exact hl1 x (List.mem_cons_of_mem _ hx1')

theorem slotAllMax_eq (r : SlotEntry) : slotAllMax r = (entrySamples r).foldl max 0 := by
  obtain ⟨time, dep, dur, durM, opt, bg, pess, tl⟩ := r
  cases opt <;> cases bg <;> cases pess <;>
    simp [slotAllMax, entrySamples, jsOrZero] <;> omega

theorem slotAllMin_eq_of_nonzero (r : SlotEntry) (h : ∀ d ∈ entrySamples r, d ≠ 0) :
    slotAllMin r = jsMinList ((entrySamples r).map some) := by
  obtain ⟨time, dep, dur, durM, opt, bg, pess, tl⟩ := r
  cases opt <;> cases bg <;> cases pess <;>
    simp_all [slotAllMin, entrySamples, jsOrInfinity, jsMinList, optMin, Nat.min_assoc]

/-- Claim C3 (amended): on a list of kept compare-all slots in which at least one slot
carries a `best_guess` sample and every present sample has a nonzero duration,
aggregation succeeds and: `maxDuration` and `minDuration` of the result are the
maximum and minimum duration over all present samples of all three models across all
kept slots (absent samples contributing nothing), and the optimal slot is the first
slot, in slot order, among those carrying a `best_guess` sample, with minimal
`best_guess` duration.  (Without the nonzero proviso the claim fails: a present
0-second sample is excluded from the minimum by the `|| Infinity` coalescing; without
a `best_guess` carrier no result is produced at all, see the empty-reduce claim.) -/
theorem aggregateCompare_extrema_and_optimal :
    ∀ results : List SlotEntry,
      (∃ r ∈ results, r.best_guess.isSome) →
      (∀ d ∈ allSamples results, d ≠ 0) →
      ∃ res, aggregateCompare results = .ok res
        ∧ (allSamples results).max? = some res.maxDuration
        ∧ (allSamples results).min? = res.minDuration
        ∧ res.optimal.best_guess.isSome = true
        ∧ ∃ l1 l2, results.filter (fun r => r.best_guess.isSome) = l1 ++ res.optimal :: l2
            ∧ (∀ x ∈ l1, bgDuration res.optimal < bgDuration x)
            ∧ (∀ x ∈ l2, bgDuration res.optimal ≤ bgDuration x) := by
  intro results hbg hpos
  obtain ⟨rb, hrb_mem, hrb⟩ := hbg
  have hmem_filter : rb ∈ results.filter (fun r => r.best_guess.isSome) :=
    List.mem_filter.mpr ⟨hrb_mem, hrb⟩
  cases hv : results.filter (fun r => r.best_guess.isSome) with
  | nil => rw [hv] at hmem_filter; cases hmem_filter
  | cons v vs =>
    obtain ⟨l1, l2, r, hfold, hdecomp, hl1, hl2⟩ := jsReduce_first_min bgDuration vs v
    have hagg : aggregateCompare results = .ok
        { times := results, optimal := r,
          savingsMinutes := roundDiv60 ((results.map slotAllMax).foldl max 0 - bgDuration r),
          minDuration := jsMinList (results.map slotAllMin),
          maxDuration := (results.map slotAllMax).foldl max 0,
          isCompareAll := true } := by
      simp only [aggregateCompare, hv, jsReduce, hfold]
    refine ⟨_, hagg, ?_, ?_, ?_, ?_⟩
    · show (allSamples results).max? = some ((results.map slotAllMax).foldl max 0)
      have hne : allSamples results ≠ [] := by
        obtain ⟨s, hs⟩ := Option.isSome_iff_exists.mp hrb
        have hin : s.duration ∈ entrySamples rb := by simp [entrySamples, hs]
        exact List.ne_nil_of_mem
          (List.mem_flatten_of_mem (List.mem_map_of_mem entrySamples hrb_mem) hin)
      rw [foldl_max_eq_max? _ hne]
      congr 1
      simp only [allSamples]
      rw [← foldl_max_flatten, List.map_map]
      exact congrArg (List.foldl max 0) (List.map_congr_left (fun x _ => (slotAllMax_eq x).symm))
    · show (allSamples results).min? = jsMinList (results.map slotAllMin)
      have hper : ∀ x ∈ results, slotAllMin x = jsMinList ((entrySamples x).map some) := by
        intro x hx
        apply slotAllMin_eq_of_nonzero
        intro d hd
        exact hpos d (List.mem_flatten_of_mem (List.mem_map_of_mem entrySamples hx) hd)
      rw [List.map_congr_left hper]
      have hmm : results.map (fun x => jsMinList ((entrySamples x).map some)) =
          (results.map (fun x => (entrySamples x).map some)).map jsMinList := by
        rw [List.map_map]
        rfl
      rw [hmm, jsMinList_flatten]
      have hfl : (results.map (fun x => (entrySamples x).map some)).flatten =
          (allSamples results).map some := by
        simp only [allSamples]
        rw [List.map_flatten, List.map_map]
        rfl
      rw [hfl, jsMinList_map_some]
    · show r.best_guess.isSome = true
      have hr_in : r ∈ l1 ++ r :: l2 := List.mem_append_right _ (List.mem_cons_self r l2)
      rw [← hdecomp, ← hv] at hr_in
      exact (List.mem_filter.mp hr_in).2
    · exact ⟨l1, l2, hdecomp, hl1, hl2⟩

/-- Two kept compare-all slots: 06:00 with best_guess 600 s and pessimistic 1000 s,
06:15 with optimistic 500 s and best_guess 700 s. -/
def demoCompareResults : List SlotEntry :=
  [{ time := ⟨6, 0⟩, departureTime := 21600000,
      best_guess := some (mkSample 600), pessimistic := some (mkSample 1000) },
    { time := ⟨6, 15⟩, departureTime := 22500000,
      optimistic := some (mkSample 500), best_guess := some (mkSample 700) }]

theorem aggregateCompare_extrema_and_optimal_witness :
    (∃ r ∈ demoCompareResults, r.best_guess.isSome)
    ∧ (∀ d ∈ allSamples demoCompareResults, d ≠ 0)
    ∧ ∃ res, aggregateCompare demoCompareResults = .ok res
        ∧ (allSamples demoCompareResults).max? = some res.maxDuration
        ∧ (allSamples demoCompareResults).min? = res.minDuration
        ∧ res.optimal.best_guess.isSome = true
        ∧ ∃ l1 l2,
            demoCompareResults.filter (fun r => r.best_guess.isSome) = l1 ++ res.optimal :: l2
            ∧ (∀ x ∈ l1, bgDuration res.optimal < bgDuration x)
            ∧ (∀ x ∈ l2, bgDuration res.optimal ≤ bgDuration x) :=
  ⟨by decide, by decide,
    aggregateCompare_extrema_and_optimal demoCompareResults (by decide) (by decide)⟩

/-- One kept compare-all slot whose `best_guess` sample has duration 0 and whose
`pessimistic` sample has duration 500. -/
def demoZeroResults : List SlotEntry :=
  [{ time := ⟨6, 0⟩, departureTime := 21600000,
      best_guess := some (mkSample 0), pessimistic := some (mkSample 500) }]

/-- Claim C3 counterexample: with a present `best_guess` sample of duration 0, the
code's `minDuration` is 500 — the 0-second sample is coalesced to `Infinity` by
`|| Infinity` — while the minimum duration over all present samples is 0.  So
`minDuration` is not the minimum over all samples of all kept slots as claimed. -/
theorem aggregateCompare_zero_duration_min_mismatch :
    (aggregateCompare demoZeroResults).toOption.map AnalysisResult.minDuration
        = some (some 500)
    ∧ (allSamples demoZeroResults).min? = some 0
    ∧ some (500 : Nat) ≠ some (0 : Nat) := by
  refine ⟨rfl, rfl, by simp⟩

end Commute
